import Mathlib

/-!
Verification of the gesture tracking and smoothing pipeline of the
intellectual-canvas repository (src/app/vision).

Floating-point arithmetic of the Python source is modelled as exact real
arithmetic over the reals; float literals such as 1.1 or 0.04 denote the
corresponding rationals.  Machine integers are modelled as unbounded
integers.  Python object attributes (the FrameData dataclass is a plain
dynamic-attribute object) are modelled as an association list from
attribute names to values, and attribute lookup failure (AttributeError)
as an absent key.  Method lookup on a class is modelled by the list of
method names of its class body.
-/

open Classical

noncomputable section

/-- One MediaPipe hand landmark: normalized x, y and relative depth z. -/
structure Landmark where
  x : ℝ
  y : ℝ
  z : ℝ

/-- A hand candidate: 21 landmarks, indexed as in MediaPipe. -/
abbrev Hand : Type := Fin 21 → Landmark

/-- np.hypot, used for every 2-D distance in the source. -/
def pyHypot (a b : ℝ) : ℝ := Real.sqrt (a ^ 2 + b ^ 2)

/-- GestureDetector._dist: np.hypot(p1.x - p2.x, p1.y - p2.y). -/
def _dist (p1 p2 : Landmark) : ℝ := pyHypot (p1.x - p2.x) (p1.y - p2.y)

/-- Python int(): truncation toward zero. -/
def pyInt (r : ℝ) : ℤ := if 0 ≤ r then ⌊r⌋ else ⌈r⌉

/-- GestureDetector._check_fingers_extended: returns the boolean vector
[Thumb, Index, Middle, Ring, Pinky].  The thumb compares the distance of
tip (4) and joint (2) to the pinky base (17); each other finger compares
tip-to-wrist against 1.1 times pip-to-wrist.  The source contains no
depth (z) test. -/
def _check_fingers_extended (lm : Hand) : List Bool :=
  let wrist := lm 0
  let thumb : Bool := decide (_dist (lm 4) (lm 17) > _dist (lm 2) (lm 17))
  let rest : List Bool :=
    (List.zip [(8 : Fin 21), 12, 16, 20] [(6 : Fin 21), 10, 14, 18]).map
      (fun tp => decide (_dist (lm tp.1) wrist > _dist (lm tp.2) wrist * 1.1))
  thumb :: rest

/-- The result record of GestureDetector.detect (dataclass GestureResult,
defaults gesture="idle", x=-1, y=-1). -/
structure GestureResult where
  gesture : String
  x : ℤ
  y : ℤ
deriving DecidableEq

/-- The raw (pre-debounce) phase of GestureDetector.detect: the branch on
sum(fingers_extended) >= 4, then the index-only test, filling
current_gesture and the (unsmoothed) coordinates. -/
def detect_raw (lm : Hand) (img_width img_height : ℤ) : GestureResult :=
  let fingers := _check_fingers_extended lm
  if 4 ≤ (fingers.map (fun b => if b then (1 : ℕ) else 0)).sum then
    let cx := ((lm 0).x + (lm 5).x + (lm 17).x) / 3
    let cy := ((lm 0).y + (lm 5).y + (lm 17).y) / 3
    ⟨"erasing", pyInt (cx * img_width), pyInt (cy * img_height)⟩
  else if fingers.getD 1 false && !fingers.getD 2 false
      && !fingers.getD 3 false && !fingers.getD 4 false then
    ⟨"drawing", pyInt ((lm 8).x * img_width), pyInt ((lm 8).y * img_height)⟩
  else
    ⟨"idle", -1, -1⟩

end

/-- The keys of collections.Counter(buffer) in insertion order, i.e. the
labels of the buffer in order of first occurrence. -/
def counterKeys : List String → List String
  | [] => []
  | x :: xs => x :: (counterKeys xs).filter (fun y => y ≠ x)

/-- Fold computing the maximum-count key; a strict comparison keeps the
earliest key on ties, as CPython max/heapq.nlargest(1) does. -/
def maxCountAux (l : List String) : String × ℕ → List String → String × ℕ
  | best, [] => best
  | best, k :: ks =>
      maxCountAux l (if best.2 < l.count k then (k, l.count k) else best) ks

/-- Counter(buffer).most_common(1)[0]: the first-inserted label of maximal
count, paired with its count.  The source only evaluates this on a
nonempty buffer (it has just appended); the empty case is unreachable. -/
def most_common1 (l : List String) : String × ℕ :=
  match counterKeys l with
  | [] => ("", 0)
  | k :: ks => maxCountAux l (k, l.count k) ks

/-- The debouncing block of GestureDetector.detect: append the raw label,
pop the oldest if the buffer exceeds buffer_size = 4, then take the modal
label if its count reaches buffer_size - 1, else the last pushed label. -/
def pushDebounce (buffer : List String) (raw : String) : List String × String :=
  let buf := buffer ++ [raw]
  let buf := if 4 < buf.length then buf.tail else buf
  let mc := most_common1 buf
  let stable := if 4 - 1 ≤ mc.2 then mc.1 else buf.getLastD ""
  (buf, stable)

/-- Feeding a label sequence through the debouncer starting from a fresh
(empty) buffer; returns the final buffer and the last stable output. -/
def pushSeq (labels : List String) : List String × String :=
  labels.foldl (fun acc l => pushDebounce acc.1 l) ([], "idle")

noncomputable section

/-- GestureDetector.detect for a selected hand (the source early-returns
on an empty landmark list, but the service only calls it with a full
21-landmark hand): raw classification, debouncing, then the final
coordinate policy.  Note the last branch of the source resets only
result.x to -1 and leaves result.y at the raw value. -/
def detect (lm : Hand) (img_width img_height : ℤ) (buffer : List String) :
    GestureResult × List String :=
  let r := detect_raw lm img_width img_height
  let pushed := pushDebounce buffer r.gesture
  let stable := pushed.2
  let res : GestureResult :=
    if stable = "idle" then ⟨stable, -1, -1⟩
    else if stable = r.gesture then ⟨stable, r.x, r.y⟩
    else if stable ≠ r.gesture then ⟨stable, -1, r.y⟩
    else ⟨stable, r.x, r.y⟩
  (res, pushed.1)

/-- OneEuroFilter state once initialized: last filtered point, last
filtered derivative, last timestamp (x_prev, dx_prev, t_prev).  The
uninitialized state (all None after reset) is Option.none. -/
structure SmootherInner where
  x_prev : ℝ × ℝ
  dx_prev : ℝ × ℝ
  t_prev : ℝ

/-- np.linalg.norm of a 2-vector. -/
def pyNorm (v : ℝ × ℝ) : ℝ := Real.sqrt (v.1 ^ 2 + v.2 ^ 2)

/-- OneEuroFilter._alpha. -/
def _alpha (dt cutoff : ℝ) : ℝ :=
  let tau := 1 / (2 * Real.pi * cutoff)
  1 / (1 + tau / dt)

/-- Configuration of the service: frame resolution, OneEuroFilter
parameters and the lost-frame tolerance.  CameraService.__init__ uses
(640, 480), min_cutoff=0.5, beta=0.2, d_cutoff=1.0, max_lost_frames=15. -/
structure Cfg where
  width : ℤ
  height : ℤ
  min_cutoff : ℝ
  beta : ℝ
  d_cutoff : ℝ
  max_lost_frames : ℕ

def defaultCfg : Cfg := ⟨640, 480, 0.5, 0.2, 1, 15⟩

/-- OneEuroFilter.smooth_point.  The timestamp t models the
time.perf_counter() call made inside the method.  Returns the emitted
point and the successor filter state. -/
def smooth_point (cfg : Cfg) (st : Option SmootherInner) (t x y : ℝ) :
    (ℝ × ℝ) × Option SmootherInner :=
  match st with
  | none => ((x, y), some ⟨(x, y), (0, 0), t⟩)
  | some s =>
    let dt := t - s.t_prev
    if dt ≤ 0 then ((s.x_prev.1, s.x_prev.2), some s)
    else
      let dx : ℝ × ℝ := ((x - s.x_prev.1) / dt, (y - s.x_prev.2) / dt)
      let edx := pyNorm s.dx_prev
      let cutoff := cfg.min_cutoff + cfg.beta * |edx|
      let a := _alpha dt cutoff
      let fx := a * x + (1 - a) * s.x_prev.1
      let fy := a * y + (1 - a) * s.x_prev.2
      let ad := _alpha dt cfg.d_cutoff
      let fdx : ℝ × ℝ :=
        (ad * dx.1 + (1 - ad) * s.dx_prev.1, ad * dx.2 + (1 - ad) * s.dx_prev.2)
      ((fx, fy), some ⟨(fx, fy), fdx, t⟩)

/-- The persistent per-tick state of CameraService (its own fields plus
the detector buffer and smoother state it owns). -/
structure TickState where
  active_hand_prev_wrist : Option (ℝ × ℝ)
  lost_frame_count : ℕ
  smoother : Option SmootherInner
  gesture_buffer : List String
  last_frame_time : ℝ

/-- The wrist landmark position of a hand candidate. -/
def wristPos (h : Hand) : ℝ × ℝ := ((h 0).x, (h 0).y)

/-- The body shared by CameraService._find_center_hand and
_find_closest_hand: scan the candidates keeping the one whose wrist is
nearest to the target point.  The accumulator mirrors the source pair
(best_hand = None, min_dist = inf): a None minimum compares greater than
every distance. -/
def findMinAux (p : ℝ × ℝ) : List Hand → Option Hand × Option ℝ → Option Hand × Option ℝ
  | [], acc => acc
  | h :: hs, acc =>
    let d := pyHypot ((h 0).x - p.1) ((h 0).y - p.2)
    let acc2 : Option Hand × Option ℝ :=
      match acc.2 with
      | none => (some h, some d)
      | some m => if d < m then (some h, some d) else acc
    findMinAux p hs acc2

/-- CameraService._find_center_hand: nearest wrist to the frame center. -/
def _find_center_hand (hands : List Hand) : Option Hand :=
  (findMinAux (0.5, 0.5) hands (none, none)).1

/-- CameraService._find_closest_hand: nearest wrist to the previous
wrist coordinates. -/
def _find_closest_hand (hands : List Hand) (prev : ℝ × ℝ) : Option Hand :=
  (findMinAux prev hands (none, none)).1

/-- The hand-locking selection of CameraService.get_frame_data for a tick
whose detector produced the candidate list: center selection when
unlocked, else nearest-to-previous with the 0.3 jump threshold. -/
def select_target (st : TickState) (hands : List Hand) : Option Hand :=
  match st.active_hand_prev_wrist with
  | none => _find_center_hand hands
  | some pw =>
    match _find_closest_hand hands pw with
    | none => none
    | some t =>
      if pyHypot ((t 0).x - pw.1) ((t 0).y - pw.2) > 0.3 then none else some t

/-- The target of a tick: None on capture failure, None when MediaPipe
reports no hands (the source guards with `if results.multi_hand_landmarks`,
so an empty list never reaches selection), else the locked selection. -/
def targetOf (st : TickState) (frame : Option (List Hand)) : Option Hand :=
  match frame with
  | none => none
  | some hands => if hands.isEmpty then none else select_target st hands

/-- The lost-frame bookkeeping shared by both miss branches of
get_frame_data: increment the counter; beyond max_lost_frames drop the
lock and reset the smoother.  The gesture buffer is not touched. -/
def lose_frame (cfg : Cfg) (st : TickState) : TickState :=
  let lc := st.lost_frame_count + 1
  if cfg.max_lost_frames < lc then
    { st with lost_frame_count := lc, active_hand_prev_wrist := none, smoother := none }
  else
    { st with lost_frame_count := lc }

end

/-- Python values stored in FrameData attributes. -/
inductive PyVal where
  | vNone : PyVal
  | vBool : Bool → PyVal
  | vInt : ℤ → PyVal
  | vFloat : ℝ → PyVal
  | vStr : String → PyVal
  | vFrame : PyVal

/-- A Python object with dynamic attributes: attribute names paired with
values, in assignment order. -/
abbrev PyObj : Type := List (String × PyVal)

/-- Attribute assignment: overwrite an existing attribute in place, else
append a new one. -/
def pySetAttr (obj : PyObj) (k : String) (v : PyVal) : PyObj :=
  if obj.any (fun p => p.1 = k) then
    obj.map (fun p => if p.1 = k then (k, v) else p)
  else obj ++ [(k, v)]

/-- Attribute lookup; none models AttributeError. -/
def pyGetAttr (obj : PyObj) (k : String) : Option PyVal :=
  (obj.find? (fun p => p.1 = k)).map (fun p => p.2)

noncomputable section

/-- The declared dataclass fields of FrameData (frame_data.py) with their
defaults.  Note the cursor fields are named index_finger_x and
index_finger_y and there is no is_tracking, cursor_x or cursor_y field. -/
def frameDataInit : PyObj :=
  [("raw_frame", .vNone), ("gesture", .vStr "idle"),
   ("index_finger_x", .vInt (-1)), ("index_finger_y", .vInt (-1)),
   ("is_pinch_active", .vBool false), ("is_palm_open", .vBool false),
   ("scale_factor", .vFloat 1), ("hands_distance_px", .vFloat 0),
   ("fps", .vFloat 0), ("latency_ms", .vFloat 0),
   ("detection_confidence", .vFloat 0), ("tracking_confidence", .vFloat 0),
   ("num_hands_detected", .vInt 0),
   ("landmarks_left", .vNone), ("landmarks_right", .vNone)]

/-- The method names of the class body of MetricsCollector (metrics.py).
There is no calculate_fps method. -/
def MetricsCollectorMethods : List String := ["__init__", "update"]

/-- CameraService.get_frame_data for one tick.  The input is the
perf_counter time and the captured frame: none when cap.read() fails,
else the list of hand candidates that MediaPipe detected on it.  The
result pairs the successor state (Python mutates self before any raise)
with either the returned FrameData object or the uncaught exception
raised by the tick.  The final statement of the source is
`frame_data.fps = self.metrics.calculate_fps()`, a method lookup on
MetricsCollector. -/
def get_frame_data (cfg : Cfg) (st : TickState) (now : ℝ)
    (frame : Option (List Hand)) : TickState × Except String PyObj :=
  let fd := frameDataInit
  let fd := pySetAttr fd "latency_ms" (.vFloat ((now - st.last_frame_time) * 1000))
  let st := { st with last_frame_time := now }
  match frame with
  | none =>
    (st, .ok (pySetAttr fd "raw_frame" .vNone))
  | some hands =>
    let fd := pySetAttr fd "raw_frame" .vFrame
    let target := targetOf st (some hands)
    let stfd : TickState × PyObj :=
      match target with
      | some t =>
        ({ st with active_hand_prev_wrist := some ((t 0).x, (t 0).y),
                   lost_frame_count := 0 },
         pySetAttr fd "is_tracking" (.vBool true))
      | none => (lose_frame cfg st, fd)
    let st := stfd.1
    let fd := stfd.2
    let stfd2 : TickState × PyObj :=
      match target with
      | some t =>
        let det := detect t cfg.width cfg.height st.gesture_buffer
        let gres := det.1
        let st := { st with gesture_buffer := det.2 }
        let fd := pySetAttr fd "gesture" (.vStr gres.gesture)
        if gres.gesture ≠ "idle" ∧ gres.x ≠ -1 then
          let sm := smooth_point cfg st.smoother now (gres.x : ℝ) (gres.y : ℝ)
          ({ st with smoother := sm.2 },
           pySetAttr (pySetAttr fd "cursor_x" (.vInt (pyInt sm.1.1)))
             "cursor_y" (.vInt (pyInt sm.1.2)))
        else
          ({ st with smoother := none }, fd)
      | none => (st, fd)
    let st := stfd2.1
    let fd := stfd2.2
    if "calculate_fps" ∈ MetricsCollectorMethods then
      (st, .ok (pySetAttr fd "fps" (.vFloat 0)))
    else
      (st, .error "AttributeError: MetricsCollector has no attribute calculate_fps")

/-- Running get_frame_data over a list of tick inputs. -/
def runTicks (cfg : Cfg) : TickState → List (ℝ × Option (List Hand)) → TickState
  | st, [] => st
  | st, i :: is => runTicks cfg (get_frame_data cfg st i.1 i.2).1 is

/-- A run of consecutive lost ticks: every tick delivers a frame (so it is
not a capture failure) but hand selection fails — no candidates, or the
best match beyond the jump threshold. -/
def AllLost (cfg : Cfg) : TickState → List (ℝ × Option (List Hand)) → Prop
  | _, [] => True
  | st, i :: is =>
      (∃ hands, i.2 = some hands) ∧ targetOf st i.2 = none ∧
        AllLost cfg (get_frame_data cfg st i.1 i.2).1 is

/-- The distance from a candidate wrist landmark to a reference point,
as computed inline by both selection helpers of the source. -/
@[reducible] def wrist_dist (h : Hand) (p : ℝ × ℝ) : ℝ :=
  pyHypot ((h 0).x - p.1) ((h 0).y - p.2)

/-- A hand whose landmarks all lie on the y/z plane (x = 0); the first
component of f i is the y coordinate, the second the z coordinate.  All
planar distances of such a hand are absolute y differences. -/
def yHand (f : Fin 21 → ℝ × ℝ) : Hand := fun i => ⟨0, (f i).1, (f i).2⟩

/-- Tip landmark index of each non-thumb finger [index, middle, ring,
pinky], as in the source lists tips = [8, 12, 16, 20]. -/
def tip_of : Fin 4 → Fin 21
  | 0 => 8
  | 1 => 12
  | 2 => 16
  | 3 => 20

/-- PIP landmark index of each non-thumb finger, pips = [6, 10, 14, 18]. -/
def pip_of : Fin 4 → Fin 21
  | 0 => 6
  | 1 => 10
  | 2 => 14
  | 3 => 18

/-- Modelled from the words of the spec (4.3(a)): length heuristic,
distance(tip, wrist) > 1.1 x distance(pip_joint, wrist). -/
def spec_length_heuristic (lm : Hand) (tip pip : Fin 21) : Prop :=
  _dist (lm tip) (lm 0) > 1.1 * _dist (lm pip) (lm 0)

/-- Modelled from the words of the spec (4.3(b)): depth heuristic,
tip.z < pip_joint.z - epsilon with the default epsilon 0.04. -/
def spec_depth_heuristic (lm : Hand) (tip pip : Fin 21) : Prop :=
  (lm tip).z < (lm pip).z - 0.04

/-- Landmarks falsifying claim C3: the index pip at y = 1 (z = 0.1), the
index tip at y = 1.05 (z = 0), every other landmark at the origin.  The
depth heuristic holds (0 < 0.1 - 0.04) while the length heuristic fails
(1.05 is not greater than 1.1). -/
def fDepth : Fin 21 → ℝ × ℝ := fun i =>
  if i = 6 then (1, 0.1) else if i = 8 then (1.05, 0) else (0, 0)

def handDepth : Hand := yHand fDepth

/-- Modelled from the words of the spec (4.3 decision table, checked in
order): at least 4 of 5 extended gives erasing at the pixel-scaled mean
of landmarks 0, 5 and 17; else index extended with middle, ring and
pinky all not extended gives drawing at pixel-scaled landmark 8; else
idle with sentinel cursor. -/
def spec_raw_classification (lm : Hand) (img_width img_height : ℤ) : GestureResult :=
  let fingers := _check_fingers_extended lm
  if 4 ≤ fingers.count true then
    ⟨"erasing",
     pyInt (((lm 0).x + (lm 5).x + (lm 17).x) / 3 * img_width),
     pyInt (((lm 0).y + (lm 5).y + (lm 17).y) / 3 * img_height)⟩
  else if fingers.getD 1 false = true ∧ fingers.getD 2 false = false ∧
      fingers.getD 3 false = false ∧ fingers.getD 4 false = false then
    ⟨"drawing", pyInt ((lm 8).x * img_width), pyInt ((lm 8).y * img_height)⟩
  else
    ⟨"idle", -1, -1⟩

/-- The all-origin hand: no finger extended, raw label idle. -/
def fZero : Fin 21 → ℝ × ℝ := fun _ => (0, 0)

def handZero : Hand := yHand fZero

/-- A hand with only the index finger extended: pip 6 at y = 1, tip 8 at
y = 2, everything else at the origin.  Raw label drawing with raw cursor
(0, 960) at resolution 640 x 480. -/
def fDraw : Fin 21 → ℝ × ℝ := fun i =>
  if i = 6 then (1, 0) else if i = 8 then (2, 0) else (0, 0)

def handDraw : Hand := yHand fDraw

/-- A concrete configuration with min_cutoff = 1 and beta = 0,
exercising the smoother bound. -/
def c8cfg : Cfg := ⟨640, 480, 1, 0, 1, 15⟩

/-- A concrete initialized smoother state: previous point (0, 0), zero
velocity, previous timestamp 0. -/
def c8s : SmootherInner := ⟨(0, 0), (0, 0), 0⟩

/-- A concrete locked tracking state: wrist stored at (0.2, 0.3), no
lost frames, an initialized smoother, one buffered label. -/
def c7st : TickState :=
  ⟨some (0.2, 0.3), 0, some ⟨(1, 2), (0, 0), 0⟩, ["idle"], 0⟩

end

/-- Claim C1: the spec states that every tick of get_frame_data completes
without raising.  The code violates this: on every tick on which a frame
is captured, the final statement looks up calculate_fps on
MetricsCollector, which only defines update, so the tick raises
AttributeError (after having already mutated the tracking state). -/
theorem get_frame_data_raises_on_every_captured_frame
    (cfg : Cfg) (st : TickState) (now : ℝ) (hands : List Hand) :
    (get_frame_data cfg st now (some hands)).2 =
      .error "AttributeError: MetricsCollector has no attribute calculate_fps" := by
  have h : ("calculate_fps" ∈ MetricsCollectorMethods) = False := by
    simp [MetricsCollectorMethods]
  simp only [get_frame_data, h, if_false]

/-- Claim C2: on a capture-failure tick the pipeline is skipped and the
tracking, smoothing and debounce state is indeed preserved, but the
returned FrameData object does not carry the fields the spec promises:
FrameData declares index_finger_x/index_finger_y and no is_tracking,
cursor_x or cursor_y field, and the early-return path sets none of them,
so nothing reports is_tracking = false (reading it raises
AttributeError). -/
theorem capture_failure_state_preserved_but_fields_missing
    (cfg : Cfg) (st : TickState) (now : ℝ) :
    (get_frame_data cfg st now none).1.active_hand_prev_wrist =
        st.active_hand_prev_wrist ∧
    (get_frame_data cfg st now none).1.lost_frame_count = st.lost_frame_count ∧
    (get_frame_data cfg st now none).1.smoother = st.smoother ∧
    (get_frame_data cfg st now none).1.gesture_buffer = st.gesture_buffer ∧
    ∃ obj, (get_frame_data cfg st now none).2 = .ok obj ∧
      pyGetAttr obj "is_tracking" = none ∧
      pyGetAttr obj "cursor_x" = none ∧
      pyGetAttr obj "cursor_y" = none ∧
      pyGetAttr obj "gesture" = some (.vStr "idle") ∧
      (∃ v, pyGetAttr obj "fps" = some v) ∧
      (∃ v, pyGetAttr obj "latency_ms" = some v) := by
  refine ⟨rfl, rfl, rfl, rfl, ?_⟩
  refine ⟨_, rfl, ?_, ?_, ?_, ?_, ?_, ?_⟩ <;>
    simp [pyGetAttr, pySetAttr, frameDataInit, List.find?]

theorem counterKeys_mem (l : List String) (k : String) :
    k ∈ counterKeys l ↔ k ∈ l := by
  induction l with
  | nil => simp [counterKeys]
  | cons x xs ih =>
    by_cases hkx : k = x <;>
      simp [counterKeys, List.mem_filter, hkx, ih]

theorem maxCountAux_spec (l : List String) (ks : List String) (best : String × ℕ)
    (hbest : best.2 = l.count best.1) :
    (maxCountAux l best ks).2 = l.count (maxCountAux l best ks).1 ∧
    best.2 ≤ (maxCountAux l best ks).2 ∧
    (∀ k ∈ ks, l.count k ≤ (maxCountAux l best ks).2) ∧
    ((maxCountAux l best ks).1 = best.1 ∨ (maxCountAux l best ks).1 ∈ ks) := by
  induction ks generalizing best with
  | nil => exact ⟨hbest, le_refl _, by simp, Or.inl rfl⟩
  | cons k ks ih =>
    simp only [maxCountAux]
    by_cases h : best.2 < l.count k
    · simp only [if_pos h]
      obtain ⟨h1, h2, h3, h4⟩ := ih (k, l.count k) rfl
      refine ⟨h1, le_trans h.le h2, ?_, ?_⟩
      · intro k2 hk2
        rcases List.mem_cons.mp hk2 with hk2 | hk2
        · exact hk2 ▸ h2
        · exact h3 k2 hk2
      · refine Or.inr ?_
        rcases h4 with h4 | h4
        · exact h4 ▸ List.mem_cons_self k ks
        · exact List.mem_cons_of_mem _ h4
    · simp only [if_neg h]
      obtain ⟨h1, h2, h3, h4⟩ := ih best hbest
      refine ⟨h1, h2, ?_, ?_⟩
      · intro k2 hk2
        rcases List.mem_cons.mp hk2 with hk2 | hk2
        · exact hk2 ▸ le_trans (not_lt.mp h) h2
        · exact h3 k2 hk2
      · exact h4.imp id (List.mem_cons_of_mem _)

theorem most_common1_spec (l : List String) (hl : l ≠ []) :
    (most_common1 l).1 ∈ l ∧
    (most_common1 l).2 = l.count (most_common1 l).1 ∧
    (∀ k ∈ l, l.count k ≤ (most_common1 l).2) := by
  cases hck : counterKeys l with
  | nil =>
    exfalso
    cases l with
    | nil => exact hl rfl
    | cons x xs =>
      have : x ∈ counterKeys (x :: xs) :=
        (counterKeys_mem _ _).mpr (List.mem_cons_self _ _)
      rw [hck] at this
      exact (List.not_mem_nil x) this
  | cons k ks =>
    have hmc : most_common1 l = maxCountAux l (k, l.count k) ks := by
      simp only [most_common1, hck]
    obtain ⟨h1, h2, h3, h4⟩ := maxCountAux_spec l ks (k, l.count k) rfl
    rw [hmc]
    refine ⟨?_, h1, ?_⟩
    · rcases h4 with h4 | h4
      · rw [h4]
        exact (counterKeys_mem _ _).mp (hck ▸ List.mem_cons_self _ _)
      · exact (counterKeys_mem _ _).mp (hck ▸ List.mem_cons_of_mem _ h4)
    · intro k2 hk2
      have hk2' : k2 ∈ counterKeys l := (counterKeys_mem _ _).mpr hk2
      rw [hck] at hk2'
      rcases List.mem_cons.mp hk2' with hk2' | hk2'
      · exact hk2' ▸ h2
      · exact h3 k2 hk2'

theorem count_pair_le_length (l : List String) (a b : String) (hab : a ≠ b) :
    l.count a + l.count b ≤ l.length := by
  induction l with
  | nil => simp
  | cons x xs ih =>
    simp only [List.count_cons, List.length_cons, beq_iff_eq]
    rcases eq_or_ne x a with h1 | h1 <;> rcases eq_or_ne x b with h2 | h2
    · exact absurd (h1.symm.trans h2) hab
    · simp only [if_pos h1, if_neg h2]
      omega
    · simp only [if_neg h1, if_pos h2]
      omega
    · simp only [if_neg h1, if_neg h2]
      omega

theorem getLastD_concat (pre : List String) (r : String) :
    ∀ d, (pre ++ [r]).getLastD d = r := by
  induction pre with
  | nil => intro d; rfl
  | cons x xs ih =>
    intro d
    rw [List.cons_append, List.getLastD_cons]
    exact ih x

theorem pushDebounce_fst (buffer : List String) (raw : String) :
    (pushDebounce buffer raw).1 =
      if 4 < buffer.length + 1 then (buffer ++ [raw]).tail
      else buffer ++ [raw] := by
  simp [pushDebounce]

theorem pushDebounce_window (buffer : List String) (raw : String) :
    ∃ pre, (pushDebounce buffer raw).1 = pre ++ [raw] ∧
      (buffer.length ≤ 4 → (pre ++ [raw]).length ≤ 4) := by
  by_cases h : 4 < buffer.length + 1
  · rw [pushDebounce_fst, if_pos h]
    cases buffer with
    | nil => simp at h
    | cons x xs =>
      refine ⟨xs, by simp, ?_⟩
      intro hlen
      simp only [List.length_cons] at hlen
      simp only [List.length_append, List.length_singleton]
      omega
  · rw [pushDebounce_fst, if_neg h]
    refine ⟨buffer, rfl, ?_⟩
    intro _
    simp only [List.length_append, List.length_singleton]
    omega

theorem pushDebounce_stable (buffer : List String) (raw : String) :
    (pushDebounce buffer raw).2 =
      if 3 ≤ (most_common1 (pushDebounce buffer raw).1).2 then
        (most_common1 (pushDebounce buffer raw).1).1
      else (pushDebounce buffer raw).1.getLastD "" := rfl

/-- Claim C6: debouncer policy.  After a push into a window of capacity
4, a label reaching count 3 (the supermajority K-1) is the stable output;
with no supermajority the stable output is the label just pushed.  The
two example sequences of the spec evaluate as claimed. -/
theorem debounce_supermajority_policy :
    (∀ buffer raw, buffer.length ≤ 4 →
      ((∀ l, 3 ≤ (pushDebounce buffer raw).1.count l →
          (pushDebounce buffer raw).2 = l) ∧
       ((∀ l, (pushDebounce buffer raw).1.count l < 3) →
          (pushDebounce buffer raw).2 = raw))) ∧
    (pushSeq ["drawing", "drawing", "drawing", "idle"]).2 = "drawing" ∧
    (pushSeq ["drawing", "idle", "drawing", "idle"]).2 = "idle" := by
  refine ⟨?_, by decide, by decide⟩
  intro buffer raw hlen
  obtain ⟨pre, hpre, hsz⟩ := pushDebounce_window buffer raw
  have hne : (pushDebounce buffer raw).1 ≠ [] := by
    rw [hpre]; simp
  obtain ⟨hmem, hcnt, hmax⟩ := most_common1_spec _ hne
  constructor
  · intro l hl
    have h3 : 3 ≤ (most_common1 (pushDebounce buffer raw).1).2 :=
      le_trans hl (hmax l (by
        have : 0 < (pushDebounce buffer raw).1.count l := by omega
        exact List.count_pos_iff.mp this))
    rw [pushDebounce_stable, if_pos h3]
    by_contra hne2
    have hsum := count_pair_le_length (pushDebounce buffer raw).1
      (most_common1 (pushDebounce buffer raw).1).1 l hne2
    have hlen4 : (pushDebounce buffer raw).1.length ≤ 4 := by
      rw [hpre]; exact hsz hlen
    rw [hcnt] at h3
    omega
  · intro hall
    have hlt : (most_common1 (pushDebounce buffer raw).1).2 < 3 := by
      rw [hcnt]; exact hall _
    rw [pushDebounce_stable, if_neg (by omega), hpre, getLastD_concat]

/-- Witness for claim C6 at a concrete input: a window holding three
copies of one label keeps that label stable when a fourth, different
label is pushed. -/
theorem debounce_supermajority_policy_witness :
    3 ≤ (pushDebounce ["a", "a", "a"] "b").1.count "a" ∧
    (pushDebounce ["a", "a", "a"] "b").2 = "a" :=
  ⟨by decide,
   (debounce_supermajority_policy.1 ["a", "a", "a"] "b" (by decide)).1 "a"
     (by decide)⟩

theorem blend_mem_segment (a p c : ℝ) (h0 : 0 < a) (h1 : a < 1) :
    min p c ≤ a * c + (1 - a) * p ∧ a * c + (1 - a) * p ≤ max p c := by
  rcases le_total p c with h | h
  · rw [min_eq_left h, max_eq_right h]
    constructor <;> nlinarith
  · rw [min_eq_right h, max_eq_left h]
    constructor <;> nlinarith

theorem alpha_pos_lt_one (dt cutoff : ℝ) (hdt : 0 < dt) (hc : 0 < cutoff) :
    0 < _alpha dt cutoff ∧ _alpha dt cutoff < 1 := by
  have hpi : (0 : ℝ) < Real.pi := Real.pi_pos
  have hq : 0 < (1 / (2 * Real.pi * cutoff)) / dt := by positivity
  unfold _alpha
  refine ⟨by positivity, ?_⟩
  rw [div_lt_one (by linarith)]
  linarith

/-- Claim C8: on an initialized smoother state with positive dt, positive
min_cutoff and nonnegative beta, the blend coefficient alpha lies
strictly between 0 and 1 and each emitted coordinate lies on the segment
between the previous filtered value and the current raw input. -/
theorem smoother_output_in_segment (cfg : Cfg) (s : SmootherInner) (t x y : ℝ)
    (hdt : s.t_prev < t) (hmc : 0 < cfg.min_cutoff) (hb : 0 ≤ cfg.beta) :
    (0 < _alpha (t - s.t_prev) (cfg.min_cutoff + cfg.beta * |pyNorm s.dx_prev|) ∧
     _alpha (t - s.t_prev) (cfg.min_cutoff + cfg.beta * |pyNorm s.dx_prev|) < 1) ∧
    (min s.x_prev.1 x ≤ ((smooth_point cfg (some s) t x y).1).1 ∧
     ((smooth_point cfg (some s) t x y).1).1 ≤ max s.x_prev.1 x) ∧
    (min s.x_prev.2 y ≤ ((smooth_point cfg (some s) t x y).1).2 ∧
     ((smooth_point cfg (some s) t x y).1).2 ≤ max s.x_prev.2 y) := by
  have hcut : 0 < cfg.min_cutoff + cfg.beta * |pyNorm s.dx_prev| := by
    have h0 : 0 ≤ cfg.beta * |pyNorm s.dx_prev| := mul_nonneg hb (abs_nonneg _)
    linarith
  have hdt2 : 0 < t - s.t_prev := by linarith
  obtain ⟨ha0, ha1⟩ := alpha_pos_lt_one _ _ hdt2 hcut
  have hout : (smooth_point cfg (some s) t x y).1 =
      (_alpha (t - s.t_prev) (cfg.min_cutoff + cfg.beta * |pyNorm s.dx_prev|) * x +
         (1 - _alpha (t - s.t_prev) (cfg.min_cutoff + cfg.beta * |pyNorm s.dx_prev|)) *
           s.x_prev.1,
       _alpha (t - s.t_prev) (cfg.min_cutoff + cfg.beta * |pyNorm s.dx_prev|) * y +
         (1 - _alpha (t - s.t_prev) (cfg.min_cutoff + cfg.beta * |pyNorm s.dx_prev|)) *
           s.x_prev.2) := by
    simp only [smooth_point]
    rw [if_neg (not_le.mpr hdt2)]
  rw [hout]
  exact ⟨⟨ha0, ha1⟩, blend_mem_segment _ _ _ ha0 ha1, blend_mem_segment _ _ _ ha0 ha1⟩

/-- Witness for claim C8: from previous filtered point (0, 0) at time 0,
smoothing the raw point (10, 10) at time 1 stays within [0, 10] on each
coordinate. -/
theorem smoother_output_in_segment_witness :
    c8s.t_prev < 1 ∧ 0 < c8cfg.min_cutoff ∧ 0 ≤ c8cfg.beta ∧
    (min c8s.x_prev.1 10 ≤ ((smooth_point c8cfg (some c8s) 1 10 10).1).1 ∧
     ((smooth_point c8cfg (some c8s) 1 10 10).1).1 ≤ max c8s.x_prev.1 10) ∧
    (min c8s.x_prev.2 10 ≤ ((smooth_point c8cfg (some c8s) 1 10 10).1).2 ∧
     ((smooth_point c8cfg (some c8s) 1 10 10).1).2 ≤ max c8s.x_prev.2 10) :=
  ⟨one_pos, one_pos, le_refl 0,
   (smoother_output_in_segment c8cfg c8s 1 10 10 one_pos one_pos (le_refl 0)).2.1,
   (smoother_output_in_segment c8cfg c8s 1 10 10 one_pos one_pos (le_refl 0)).2.2⟩

theorem pyHypot_zero_left (a : ℝ) : pyHypot 0 a = |a| := by
  rw [pyHypot]
  norm_num [Real.sqrt_sq_eq_abs]

theorem dist_yHand (f : Fin 21 → ℝ × ℝ) (i j : Fin 21) :
    _dist (yHand f i) (yHand f j) = |(f i).1 - (f j).1| := by
  simp only [yHand, _dist, sub_self]
  exact pyHypot_zero_left _

theorem check_yHand (f : Fin 21 → ℝ × ℝ) :
    _check_fingers_extended (yHand f) =
      [decide (|(f 4).1 - (f 17).1| > |(f 2).1 - (f 17).1|),
       decide (|(f 8).1 - (f 0).1| > |(f 6).1 - (f 0).1| * 1.1),
       decide (|(f 12).1 - (f 0).1| > |(f 10).1 - (f 0).1| * 1.1),
       decide (|(f 16).1 - (f 0).1| > |(f 14).1 - (f 0).1| * 1.1),
       decide (|(f 20).1 - (f 0).1| > |(f 18).1 - (f 0).1| * 1.1)] := by
  simp only [_check_fingers_extended, List.zip, List.zipWith, List.map,
    dist_yHand]

theorem check_fDepth :
    _check_fingers_extended handDepth = [false, false, false, false, false] := by
  rw [show handDepth = yHand fDepth from rfl, check_yHand]
  norm_num [show fDepth 0 = (0, 0) from rfl, show fDepth 2 = (0, 0) from rfl,
    show fDepth 4 = (0, 0) from rfl, show fDepth 6 = (1, 0.1) from rfl,
    show fDepth 8 = (1.05, 0) from rfl, show fDepth 10 = (0, 0) from rfl,
    show fDepth 12 = (0, 0) from rfl, show fDepth 14 = (0, 0) from rfl,
    show fDepth 16 = (0, 0) from rfl, show fDepth 17 = (0, 0) from rfl,
    show fDepth 18 = (0, 0) from rfl, show fDepth 20 = (0, 0) from rfl,
    abs_of_nonneg, abs_le]

/-- Claim C3 counterexample: at handDepth the depth heuristic holds for
the index finger and the length heuristic fails, yet the classifier
marks the finger not extended — the source implements no depth test, so
the claimed "length OR depth" characterization is false. -/
theorem finger_extended_depth_counterexample :
    spec_depth_heuristic handDepth 8 6 ∧
    ¬ spec_length_heuristic handDepth 8 6 ∧
    (_check_fingers_extended handDepth).getD 1 false = false ∧
    ¬ ((_check_fingers_extended handDepth).getD 1 false = true ↔
        (spec_length_heuristic handDepth 8 6 ∨ spec_depth_heuristic handDepth 8 6)) := by
  have hz6 : (handDepth 6).z = 0.1 := rfl
  have hz8 : (handDepth 8).z = 0 := rfl
  have hdepth : spec_depth_heuristic handDepth 8 6 := by
    rw [spec_depth_heuristic, hz6, hz8]
    norm_num
  have hlen : ¬ spec_length_heuristic handDepth 8 6 := by
    rw [spec_length_heuristic,
      show handDepth = yHand fDepth from rfl, dist_yHand, dist_yHand,
      show fDepth 8 = (1.05, 0) from rfl, show fDepth 6 = (1, 0.1) from rfl,
      show fDepth 0 = (0, 0) from rfl]
    rw [show |(1.05 : ℝ) - 0| = 1.05 by rw [abs_of_nonneg] <;> norm_num,
      show |(1 : ℝ) - 0| = 1 by rw [abs_of_nonneg] <;> norm_num]
    norm_num
  have hcheck : (_check_fingers_extended handDepth).getD 1 false = false := by
    rw [check_fDepth]
    rfl
  refine ⟨hdepth, hlen, hcheck, ?_⟩
  rw [hcheck]
  intro hiff
  exact Bool.false_ne_true (hiff.mpr (Or.inr hdepth))

/-- Claim C3 amended: the classifier marks a non-thumb finger extended if
and only if the length heuristic alone holds; the depth heuristic of the
spec is not implemented. -/
theorem fingers_extended_iff_length_heuristic (lm : Hand) (i : Fin 4) :
    (_check_fingers_extended lm).getD ((i : ℕ) + 1) false = true ↔
      spec_length_heuristic lm (tip_of i) (pip_of i) := by
  have key : ∀ a b : ℝ, (a > b * 1.1) ↔ (a > 1.1 * b) := by
    intro a b
    rw [mul_comm]
  fin_cases i <;>
    simp [_check_fingers_extended, List.zip, spec_length_heuristic, tip_of,
      pip_of, key]

theorem sum_map_count_true (l : List Bool) :
    (l.map (fun b => if b then (1 : ℕ) else 0)).sum = l.count true := by
  induction l with
  | nil => rfl
  | cons b bs ih => cases b <;> simp [List.count_cons, ih, Nat.add_comm]

/-- Claim C4: the raw per-tick classification of the source equals the
decision table of the spec, branch for branch, including the cursor
expressions. -/
theorem detect_raw_matches_spec (lm : Hand) (w h : ℤ) :
    detect_raw lm w h = spec_raw_classification lm w h := by
  simp only [detect_raw, spec_raw_classification, sum_map_count_true]
  by_cases h1 : 4 ≤ (_check_fingers_extended lm).count true
  · rw [if_pos h1, if_pos h1]
  · rw [if_neg h1, if_neg h1]
    have hiff : (((_check_fingers_extended lm).getD 1 false &&
          !(_check_fingers_extended lm).getD 2 false &&
          !(_check_fingers_extended lm).getD 3 false &&
          !(_check_fingers_extended lm).getD 4 false) = true) ↔
        ((_check_fingers_extended lm).getD 1 false = true ∧
         (_check_fingers_extended lm).getD 2 false = false ∧
         (_check_fingers_extended lm).getD 3 false = false ∧
         (_check_fingers_extended lm).getD 4 false = false) := by
      simp only [Bool.and_eq_true, Bool.not_eq_true']
      tauto
    by_cases h2 : (_check_fingers_extended lm).getD 1 false = true ∧
        (_check_fingers_extended lm).getD 2 false = false ∧
        (_check_fingers_extended lm).getD 3 false = false ∧
        (_check_fingers_extended lm).getD 4 false = false
    · rw [if_pos (hiff.mpr h2), if_pos h2]
    · rw [if_neg (fun hb => h2 (hiff.mp hb)), if_neg h2]

theorem check_fZero :
    _check_fingers_extended handZero = [false, false, false, false, false] := by
  rw [show handZero = yHand fZero from rfl, check_yHand]
  norm_num [fZero]

theorem detect_raw_handZero : detect_raw handZero 640 480 = ⟨"idle", -1, -1⟩ := by
  simp [detect_raw, check_fZero]

theorem detect_handZero :
    detect handZero 640 480 [] = (⟨"idle", -1, -1⟩, ["idle"]) := by
  rw [detect, detect_raw_handZero]
  decide

theorem check_fDraw :
    _check_fingers_extended handDraw = [false, true, false, false, false] := by
  rw [show handDraw = yHand fDraw from rfl, check_yHand]
  norm_num [show fDraw 0 = (0, 0) from rfl, show fDraw 2 = (0, 0) from rfl,
    show fDraw 4 = (0, 0) from rfl, show fDraw 6 = (1, 0) from rfl,
    show fDraw 8 = (2, 0) from rfl, show fDraw 10 = (0, 0) from rfl,
    show fDraw 12 = (0, 0) from rfl, show fDraw 14 = (0, 0) from rfl,
    show fDraw 16 = (0, 0) from rfl, show fDraw 17 = (0, 0) from rfl,
    show fDraw 18 = (0, 0) from rfl, show fDraw 20 = (0, 0) from rfl]

theorem detect_raw_handDraw : detect_raw handDraw 640 480 = ⟨"drawing", 0, 960⟩ := by
  norm_num [detect_raw, check_fDraw, pyInt,
    show (handDraw 8).x = 0 from rfl, show (handDraw 8).y = 2 from rfl]

/-- Claim C9: whenever the stable (debounced) label of a tick is idle,
both emitted cursor coordinates are the sentinel -1, regardless of the
raw label and of the coordinates computed earlier in the tick. -/
theorem stable_idle_cursor_sentinel (lm : Hand) (w h : ℤ) (buffer : List String)
    (hidle : (detect lm w h buffer).1.gesture = "idle") :
    (detect lm w h buffer).1.x = -1 ∧ (detect lm w h buffer).1.y = -1 := by
  by_cases h1 : (pushDebounce buffer (detect_raw lm w h).gesture).2 = "idle"
  · simp [detect, h1]
  · exfalso
    apply h1
    rw [← hidle]
    by_cases h2 : (pushDebounce buffer (detect_raw lm w h).gesture).2 =
        (detect_raw lm w h).gesture
    · simp [detect, h1, h2]
      split <;> rfl
    · simp [detect, h1, h2]

/-- Witness for claim C9: the all-origin hand pushed into an empty
buffer yields stable idle, and the emitted cursor is (-1, -1). -/
theorem stable_idle_cursor_sentinel_witness :
    (detect handZero 640 480 []).1.gesture = "idle" ∧
    (detect handZero 640 480 []).1.x = -1 ∧
    (detect handZero 640 480 []).1.y = -1 :=
  ⟨by rw [detect_handZero],
   stable_idle_cursor_sentinel handZero 640 480 [] (by rw [detect_handZero])⟩

/-- Claim C5 (code bug): on a tick whose stable label differs from the
raw label, the source resets only result.x to the sentinel and leaves
result.y at the raw value: with window [erasing, erasing, erasing] and a
raw drawing tick whose raw cursor is (0, 960), the emitted result is
gesture erasing with cursor (-1, 960) — not the claimed (-1, -1). -/
theorem transition_resets_only_x :
    (detect handDraw 640 480 ["erasing", "erasing", "erasing"]).1 =
      ⟨"erasing", -1, 960⟩ ∧
    (detect handDraw 640 480 ["erasing", "erasing", "erasing"]).1.gesture ≠
      (detect_raw handDraw 640 480).gesture ∧
    (detect handDraw 640 480 ["erasing", "erasing", "erasing"]).1.y ≠ -1 := by
  have h : detect handDraw 640 480 ["erasing", "erasing", "erasing"] =
      (⟨"erasing", -1, 960⟩, ["erasing", "erasing", "erasing", "drawing"]) := by
    rw [detect, detect_raw_handDraw]
    decide
  rw [h, detect_raw_handDraw]
  refine ⟨rfl, ?_, ?_⟩ <;> decide

theorem targetOf_ltime (st : TickState) (now : ℝ) (frame : Option (List Hand)) :
    targetOf { st with last_frame_time := now } frame = targetOf st frame := by
  cases frame with
  | none => rfl
  | some hands => rfl

theorem lose_frame_buffer (cfg : Cfg) (st : TickState) :
    (lose_frame cfg st).gesture_buffer = st.gesture_buffer := by
  rw [lose_frame]
  split <;> rfl

theorem lost_tick_state (cfg : Cfg) (st : TickState) (now : ℝ) (hands : List Hand)
    (hlost : targetOf st (some hands) = none) :
    (get_frame_data cfg st now (some hands)).1 =
      lose_frame cfg { st with last_frame_time := now } := by
  have h : targetOf { st with last_frame_time := now } (some hands) = none := by
    rw [targetOf_ltime]
    exact hlost
  simp only [get_frame_data, h]
  simp [MetricsCollectorMethods]

theorem detect_snd (lm : Hand) (w h : ℤ) (buffer : List String) :
    (detect lm w h buffer).2 =
      (pushDebounce buffer (detect_raw lm w h).gesture).1 := rfl

theorem success_tick_state (cfg : Cfg) (st : TickState) (now : ℝ)
    (hands : List Hand) (t : Hand)
    (hsel : targetOf st (some hands) = some t) :
    (get_frame_data cfg st now (some hands)).1.gesture_buffer =
      (pushDebounce st.gesture_buffer
        (detect_raw t cfg.width cfg.height).gesture).1 ∧
    (get_frame_data cfg st now (some hands)).1.active_hand_prev_wrist =
      some ((t 0).x, (t 0).y) ∧
    (get_frame_data cfg st now (some hands)).1.lost_frame_count = 0 := by
  have h : targetOf { st with last_frame_time := now } (some hands) = some t := by
    rw [targetOf_ltime]
    exact hsel
  simp only [get_frame_data, h]
  have hm : ("calculate_fps" ∈ MetricsCollectorMethods) = False := by
    simp [MetricsCollectorMethods]
  simp only [hm, if_false]
  rw [← detect_snd t cfg.width cfg.height st.gesture_buffer]
  split <;> exact ⟨rfl, rfl, rfl⟩

/-- Claim C10: no operation clears the debounce window.  The lost-frame
reset path preserves it; a tick that selects no hand (capture failure,
no candidates, jump rejection) leaves it unchanged; a tick that selects
a hand changes it only by pushing that tick's raw label; hence across a
lost run of any length the window still holds the labels recorded before
the loss. -/
theorem gesture_buffer_never_cleared (cfg : Cfg) (st : TickState) :
    (∀ st2, (lose_frame cfg st2).gesture_buffer = st2.gesture_buffer) ∧
    (∀ (now : ℝ) frame,
      (targetOf st frame = none ∧
        (get_frame_data cfg st now frame).1.gesture_buffer = st.gesture_buffer) ∨
      (∃ t, targetOf st frame = some t ∧
        (get_frame_data cfg st now frame).1.gesture_buffer =
          (pushDebounce st.gesture_buffer
            (detect_raw t cfg.width cfg.height).gesture).1)) ∧
    (∀ inputs, AllLost cfg st inputs →
      (runTicks cfg st inputs).gesture_buffer = st.gesture_buffer) := by
  have hbuf : ∀ (cfg2 : Cfg) (st2 : TickState),
      (lose_frame cfg2 st2).gesture_buffer = st2.gesture_buffer :=
    fun cfg2 st2 => lose_frame_buffer cfg2 st2
  refine ⟨hbuf cfg, ?_, ?_⟩
  · intro now frame
    cases frame with
    | none => exact Or.inl ⟨rfl, rfl⟩
    | some hands =>
      cases hsel : targetOf st (some hands) with
      | none =>
        refine Or.inl ⟨rfl, ?_⟩
        rw [lost_tick_state cfg st now hands hsel, hbuf]
      | some t =>
        exact Or.inr ⟨t, rfl, (success_tick_state cfg st now hands t hsel).1⟩
  · have main : ∀ inputs (st2 : TickState), AllLost cfg st2 inputs →
        (runTicks cfg st2 inputs).gesture_buffer = st2.gesture_buffer := by
      intro inputs
      induction inputs with
      | nil => intro st2 _; rfl
      | cons i is ih =>
        intro st2 hlost
        obtain ⟨⟨hands, hframe⟩, htarget, hrest⟩ := hlost
        rw [runTicks, ih _ hrest]
        rw [hframe] at htarget
        rw [hframe, lost_tick_state cfg st2 i.1 hands htarget, hbuf]
    exact fun inputs h => main inputs st h

theorem allLost_run (cfg : Cfg) :
    ∀ inputs (st : TickState), AllLost cfg st inputs →
      st.lost_frame_count + inputs.length ≤ cfg.max_lost_frames →
      (runTicks cfg st inputs).active_hand_prev_wrist =
        st.active_hand_prev_wrist ∧
      (runTicks cfg st inputs).smoother = st.smoother ∧
      (runTicks cfg st inputs).lost_frame_count =
        st.lost_frame_count + inputs.length := by
  intro inputs
  induction inputs with
  | nil => exact fun st _ _ => ⟨rfl, rfl, by simp [runTicks]⟩
  | cons i is ih =>
    intro st hlost hlen
    obtain ⟨⟨hands, hframe⟩, htarget, hrest⟩ := hlost
    rw [hframe] at htarget
    have hthresh : ¬ cfg.max_lost_frames < st.lost_frame_count + 1 := by
      simp only [List.length_cons] at hlen
      omega
    have hstep : (get_frame_data cfg st i.1 i.2).1 =
        { st with last_frame_time := i.1,
                  lost_frame_count := st.lost_frame_count + 1 } := by
      rw [hframe, lost_tick_state cfg st i.1 hands htarget]
      rw [lose_frame, if_neg hthresh]
    rw [runTicks, hstep]
    rw [hstep] at hrest
    obtain ⟨h1, h2, h3⟩ := ih _ hrest (by
      simp only [List.length_cons] at hlen
      simp only [List.length_cons]
      omega)
    refine ⟨h1, h2, ?_⟩
    rw [h3]
    simp only [List.length_cons]
    omega

theorem allLost_reset (cfg : Cfg) :
    ∀ inputs (st : TickState), AllLost cfg st inputs →
      st.lost_frame_count + inputs.length = cfg.max_lost_frames + 1 →
      inputs ≠ [] →
      (runTicks cfg st inputs).active_hand_prev_wrist = none ∧
      (runTicks cfg st inputs).smoother = none := by
  intro inputs
  induction inputs with
  | nil => exact fun st _ _ hne => absurd rfl hne
  | cons i is ih =>
    intro st hlost hlen _
    obtain ⟨⟨hands, hframe⟩, htarget, hrest⟩ := hlost
    rw [hframe] at htarget
    cases is with
    | nil =>
      have hthresh : cfg.max_lost_frames < st.lost_frame_count + 1 := by
        simp only [List.length_cons, List.length_nil] at hlen
        omega
      have hstep : (get_frame_data cfg st i.1 i.2).1 =
          { st with last_frame_time := i.1,
                    lost_frame_count := st.lost_frame_count + 1,
                    active_hand_prev_wrist := none, smoother := none } := by
        rw [hframe, lost_tick_state cfg st i.1 hands htarget]
        rw [lose_frame, if_pos hthresh]
      rw [runTicks, hstep]
      exact ⟨rfl, rfl⟩
    | cons j js =>
      have hthresh : ¬ cfg.max_lost_frames < st.lost_frame_count + 1 := by
        simp only [List.length_cons] at hlen
        omega
      have hstep : (get_frame_data cfg st i.1 i.2).1 =
          { st with last_frame_time := i.1,
                    lost_frame_count := st.lost_frame_count + 1 } := by
        rw [hframe, lost_tick_state cfg st i.1 hands htarget]
        rw [lose_frame, if_neg hthresh]
      rw [runTicks, hstep]
      rw [hstep] at hrest
      refine ih _ hrest (by
        simp only [List.length_cons] at hlen
        simp only [List.length_cons]
        omega) (by simp)

theorem findMinAux_some (p : ℝ × ℝ) :
    ∀ (hs : List Hand) (b : Hand) (m : ℝ), m = wrist_dist b p →
      ∃ b2 m2, findMinAux p hs (some b, some m) = (some b2, some m2) ∧
        m2 = wrist_dist b2 p ∧ m2 ≤ m ∧ (b2 = b ∨ b2 ∈ hs) ∧
        ∀ h2 ∈ hs, m2 ≤ wrist_dist h2 p := by
  intro hs
  induction hs with
  | nil =>
    intro b m hm
    exact ⟨b, m, rfl, hm, le_refl m, Or.inl rfl, by simp⟩
  | cons h hs ih =>
    intro b m hm
    simp only [findMinAux]
    by_cases hc : wrist_dist h p < m
    · rw [if_pos hc]
      obtain ⟨b2, m2, heq, hm2, hle, hmem, hall⟩ := ih h (wrist_dist h p) rfl
      refine ⟨b2, m2, heq, hm2, le_trans hle hc.le, ?_, ?_⟩
      · rcases hmem with h4 | h4
        · exact Or.inr (h4 ▸ List.mem_cons_self _ _)
        · exact Or.inr (List.mem_cons_of_mem _ h4)
      · intro h2 hh2
        rcases List.mem_cons.mp hh2 with hh2 | hh2
        · exact hh2 ▸ hle
        · exact hall h2 hh2
    · rw [if_neg hc]
      obtain ⟨b2, m2, heq, hm2, hle, hmem, hall⟩ := ih b m hm
      refine ⟨b2, m2, heq, hm2, hle,
        hmem.imp id (List.mem_cons_of_mem _), ?_⟩
      intro h2 hh2
      rcases List.mem_cons.mp hh2 with hh2 | hh2
      · exact hh2 ▸ le_trans hle (not_lt.mp hc)
      · exact hall h2 hh2

theorem findMin_from_none (p : ℝ × ℝ) (hands : List Hand) (hne : hands ≠ []) :
    ∃ b, (findMinAux p hands (none, none)).1 = some b ∧ b ∈ hands ∧
      ∀ h2 ∈ hands, wrist_dist b p ≤ wrist_dist h2 p := by
  cases hands with
  | nil => exact absurd rfl hne
  | cons h hs =>
    have hstep : findMinAux p (h :: hs) ((none : Option Hand), (none : Option ℝ)) =
        findMinAux p hs (some h, some (wrist_dist h p)) := by
      simp only [findMinAux]
    obtain ⟨b2, m2, heq, hm2, hle, hmem, hall⟩ :=
      findMinAux_some p hs h (wrist_dist h p) rfl
    refine ⟨b2, by rw [hstep, heq], ?_, ?_⟩
    · rcases hmem with h4 | h4
      · exact h4 ▸ List.mem_cons_self _ _
      · exact List.mem_cons_of_mem _ h4
    · intro h2 hh2
      rcases List.mem_cons.mp hh2 with hh2 | hh2
      · rw [hh2, ← hm2]
        exact hle
      · rw [← hm2]
        exact hall h2 hh2

theorem select_target_locked (st2 : TickState) (hands : List Hand)
    (w : ℝ × ℝ) (t : Hand) (hw2 : st2.active_hand_prev_wrist = some w)
    (hsel : select_target st2 hands = some t) :
    t ∈ hands ∧ ∀ h2 ∈ hands, wrist_dist t w ≤ wrist_dist h2 w := by
  simp only [select_target, hw2] at hsel
  cases hc : _find_closest_hand hands w with
  | none =>
    rw [hc] at hsel
    cases hsel
  | some c =>
    rw [hc] at hsel
    have hsel2 : (if pyHypot ((c 0).x - w.1) ((c 0).y - w.2) > 0.3 then
        (none : Option Hand) else some c) = some t := hsel
    by_cases hj : pyHypot ((c 0).x - w.1) ((c 0).y - w.2) > 0.3
    · rw [if_pos hj] at hsel2
      cases hsel2
    · rw [if_neg hj] at hsel2
      injection hsel2 with hct
      subst hct
      have hne : hands ≠ [] := by
        intro h
        subst h
        simp [_find_closest_hand, findMinAux] at hc
      obtain ⟨b, hb, hbmem, hball⟩ := findMin_from_none w hands hne
      rw [show _find_closest_hand hands w =
        (findMinAux w hands (none, none)).1 from rfl] at hc
      rw [hb] at hc
      injection hc with hbc
      subst hbc
      exact ⟨hbmem, hball⟩

theorem select_target_unlocked (st2 : TickState) (hands : List Hand)
    (hw2 : st2.active_hand_prev_wrist = none) (hne : hands ≠ []) :
    ∃ t, select_target st2 hands = some t ∧ t ∈ hands ∧
      ∀ h2 ∈ hands, wrist_dist t (0.5, 0.5) ≤ wrist_dist h2 (0.5, 0.5) := by
  obtain ⟨b, hb, hbmem, hball⟩ := findMin_from_none (0.5, 0.5) hands hne
  refine ⟨b, ?_, hbmem, hball⟩
  simp only [select_target, hw2, _find_center_hand]
  exact hb

/-- Claim C7: from a locked state with a fresh lock, any run of at most
max_lost_frames lost ticks keeps the stored wrist (and the smoother
state); a run of exactly max_lost_frames + 1 lost ticks unlocks and
clears the smoother, whose first post-reset output equals its raw
input; while locked, a successful selection is the candidate nearest to
the stored wrist; once unlocked, the next successful selection is the
candidate nearest to the frame center (0.5, 0.5). -/
theorem lock_persistence_and_reset (cfg : Cfg) (st : TickState) (w : ℝ × ℝ)
    (hw : st.active_hand_prev_wrist = some w) (hlc : st.lost_frame_count = 0) :
    (∀ inputs, AllLost cfg st inputs → inputs.length ≤ cfg.max_lost_frames →
      (runTicks cfg st inputs).active_hand_prev_wrist = some w ∧
      (runTicks cfg st inputs).smoother = st.smoother) ∧
    (∀ inputs, AllLost cfg st inputs →
        inputs.length = cfg.max_lost_frames + 1 →
      (runTicks cfg st inputs).active_hand_prev_wrist = none ∧
      (runTicks cfg st inputs).smoother = none) ∧
    (∀ t x y : ℝ, (smooth_point cfg none t x y).1 = (x, y)) ∧
    (∀ (st2 : TickState) hands t, st2.active_hand_prev_wrist = some w →
      select_target st2 hands = some t →
      t ∈ hands ∧ ∀ h2 ∈ hands, wrist_dist t w ≤ wrist_dist h2 w) ∧
    (∀ (st2 : TickState) hands, st2.active_hand_prev_wrist = none →
      hands ≠ [] →
      ∃ t, select_target st2 hands = some t ∧ t ∈ hands ∧
        ∀ h2 ∈ hands, wrist_dist t (0.5, 0.5) ≤ wrist_dist h2 (0.5, 0.5)) := by
  refine ⟨?_, ?_, fun t x y => rfl, ?_, ?_⟩
  · intro inputs hl hlen
    obtain ⟨h1, h2, _⟩ := allLost_run cfg inputs st hl (by rw [hlc]; omega)
    exact ⟨h1.trans hw, h2⟩
  · intro inputs hl hlen
    refine allLost_reset cfg inputs st hl (by rw [hlc]; omega) ?_
    intro h
    rw [h] at hlen
    simp at hlen
  · exact fun st2 hands t hw2 hsel =>
      select_target_locked st2 hands w t hw2 hsel
  · exact fun st2 hands hw2 hne => select_target_unlocked st2 hands hw2 hne

/-- Witness for claim C7: three consecutive no-candidate ticks keep the
stored wrist of the concrete locked state, and the freshly reset
smoother returns its raw input unchanged. -/
theorem lock_persistence_and_reset_witness :
    c7st.active_hand_prev_wrist = some (0.2, 0.3) ∧
    c7st.lost_frame_count = 0 ∧
    (runTicks defaultCfg c7st
        [(0, some []), (0, some []), (0, some [])]).active_hand_prev_wrist =
      some (0.2, 0.3) ∧
    (smooth_point defaultCfg none 5 7 9).1 = (7, 9) :=
  ⟨rfl, rfl,
   ((lock_persistence_and_reset defaultCfg c7st (0.2, 0.3) rfl rfl).1
      [(0, some []), (0, some []), (0, some [])]
      ⟨⟨[], rfl⟩, rfl, ⟨[], rfl⟩, rfl, ⟨[], rfl⟩, rfl, trivial⟩
      (by decide)).1,
   (lock_persistence_and_reset defaultCfg c7st (0.2, 0.3) rfl rfl).2.2.1 5 7 9⟩

/-- Witness for claim C10: the lost-frame path and a concrete
no-candidate tick both leave the debounce window of the concrete state
untouched. -/
theorem gesture_buffer_never_cleared_witness :
    (lose_frame defaultCfg c7st).gesture_buffer = c7st.gesture_buffer ∧
    (runTicks defaultCfg c7st [(0, some [])]).gesture_buffer =
      c7st.gesture_buffer :=
  ⟨(gesture_buffer_never_cleared defaultCfg c7st).1 c7st,
   (gesture_buffer_never_cleared defaultCfg c7st).2.2 [(0, some [])]
     ⟨⟨[], rfl⟩, rfl, trivial⟩⟩

